import Mathlib

/-!
Verification of the Eliza-IoTeX agent repository.

This file gives a shallow embedding, in Lean 4, of the parts of the
repository that the checked properties talk about:

* the response-parsing utilities and retrying generation helpers of
  packages/core/src/parsing.ts (and the generation module concatenated
  with it),
* the token-budget trimming pipeline (trimTokens / truncateTiktoken /
  truncateAuto),
* the SQLite persistence adapter's createMemory and createKnowledge
  (packages/adapter-sqlite/src/index.ts),
* the prediction-market bet helpers (packages/plugin-depin/src/helpers/
  blockchain.ts),
* the daily chain-analytics aggregation (packages/plugin-depin/src/
  schemas/iotexl1.ts),
* the candidate handling of the social-media interaction loop
  (packages/client-twitter/src/interactions.ts).

JavaScript strings are modelled as Lean strings over their character
lists; the concrete regular expressions used by the source are modelled
by direct scanning functions with the same matching semantics
(leftmost match, lazy or greedy subpatterns as written in the source);
JSON.parse is modelled by an executable recursive-descent parser over a
JSON value type.  Asynchronous network and model calls are modelled by
explicit oracles (functions supplying the outcome of each call), and
thrown JavaScript exceptions by Except / Option results.
-/

namespace ElizaIoTeX

/-! ## Character and string helpers (JavaScript semantics) -/

/-- The single-quote character. -/
def quoteC : Char := Char.ofNat 39

/-- The backslash character. -/
def backslashC : Char := Char.ofNat 92

/-- The opening curly-brace character. -/
def lbraceC : Char := Char.ofNat 123

/-- The closing curly-brace character. -/
def rbraceC : Char := Char.ofNat 125

/-- JavaScript regular-expression whitespace class over the ASCII range:
space, tab, line feed, carriage return, vertical tab, form feed. -/
def isJsWs (c : Char) : Bool :=
  c = ' ' || c = '\t' || c = '\n' || c = '\r' || c.toNat = 11 || c.toNat = 12

/-- JSON (and JSON.parse) whitespace: space, tab, line feed, carriage return. -/
def isJsonWs (c : Char) : Bool :=
  c = ' ' || c = '\t' || c = '\n' || c = '\r'

/-- Trim JavaScript whitespace from both ends of a character list
(models String.prototype.trim over the ASCII range). -/
def jsTrimList (l : List Char) : List Char :=
  ((l.dropWhile isJsWs).reverse.dropWhile isJsWs).reverse

/-- Trim JavaScript whitespace from both ends of a string. -/
def jsTrim (s : String) : String :=
  String.mk (jsTrimList s.data)

/-- Does the first list start with the second? -/
def startsWithL : List Char → List Char → Bool
  | _, [] => true
  | [], _ :: _ => false
  | a :: as, b :: bs => a = b && startsWithL as bs

/-- Index of the first occurrence of a pattern in a character list
(models String.prototype.indexOf / a literal regular-expression search). -/
def findSubIdx (pat : List Char) : List Char → Option Nat
  | [] => if pat.isEmpty then some 0 else none
  | c :: rest =>
    if startsWithL (c :: rest) pat then some 0
    else (findSubIdx pat rest).map (· + 1)

/-- Does the text contain the pattern as a contiguous substring?
(models String.prototype.includes and RegExp.test on a literal pattern). -/
def containsSub (text pat : String) : Bool :=
  (findSubIdx pat.data text.data).isSome

/-- Remove the first occurrence of a character, if any (models
String.prototype.replace of a one-character literal by the empty string). -/
def removeFirstC (c : Char) : List Char → List Char
  | [] => []
  | a :: as => if a = c then as else a :: removeFirstC c as

/-- Last `n` characters of a string (models String.prototype.slice with a
negative argument `-n` for `n > 0`). -/
def strSliceNeg (s : String) (n : Nat) : String :=
  String.mk (s.data.drop (s.data.length - n))

/-! ## JSON values and a model of JSON.parse -/

/-- JSON values as produced by JSON.parse.  Numbers are kept exactly as a
decimal mantissa and a power-of-ten exponent. -/
inductive Json where
  | null : Json
  | bool (b : Bool) : Json
  | num (mant : Int) (exp10 : Int) : Json
  | str (s : String) : Json
  | arr (elems : List Json) : Json
  | obj (fields : List (String × Json)) : Json
  deriving Repr

/-- JavaScript truthiness of a parsed JSON value: null, false, 0 and the
empty string are falsy; every object and array is truthy. -/
def jsTruthy : Json → Bool
  | .null => false
  | .bool b => b
  | .num m _ => m ≠ 0
  | .str s => s ≠ ""
  | .arr _ => true
  | .obj _ => true

/-- Truthiness of a JavaScript variable that may still be null. -/
def jsTruthyOpt : Option Json → Bool
  | some j => jsTruthy j
  | none => false

/-- Is the character an ASCII decimal digit? -/
def isDigitC (c : Char) : Bool := 48 ≤ c.toNat && c.toNat ≤ 57

/-- Numeric value of a hexadecimal digit, if it is one. -/
def hexVal (c : Char) : Option Nat :=
  if 48 ≤ c.toNat && c.toNat ≤ 57 then some (c.toNat - 48)
  else if 97 ≤ c.toNat && c.toNat ≤ 102 then some (c.toNat - 87)
  else if 65 ≤ c.toNat && c.toNat ≤ 70 then some (c.toNat - 55)
  else none

/-- Natural-number value of a list of decimal digits. -/
def digitsToNat (ds : List Char) : Nat :=
  ds.foldl (fun acc c => acc * 10 + (c.toNat - 48)) 0

/-- Parse the body of a JSON string literal (after the opening quote),
with the standard escape sequences; returns the decoded string and the
remaining input after the closing quote. -/
def parseJStrGo : Nat → List Char → List Char → Option (String × List Char)
  | 0, _, _ => none
  | fuel + 1, acc, l =>
    match l with
    | [] => none
    | c :: rest =>
      if c = '"' then some (String.mk acc.reverse, rest)
      else if c = backslashC then
        match rest with
        | [] => none
        | e :: rest2 =>
          if e = '"' then parseJStrGo fuel ('"' :: acc) rest2
          else if e = backslashC then parseJStrGo fuel (backslashC :: acc) rest2
          else if e = '/' then parseJStrGo fuel ('/' :: acc) rest2
          else if e = 'b' then parseJStrGo fuel (Char.ofNat 8 :: acc) rest2
          else if e = 'f' then parseJStrGo fuel (Char.ofNat 12 :: acc) rest2
          else if e = 'n' then parseJStrGo fuel ('\n' :: acc) rest2
          else if e = 'r' then parseJStrGo fuel ('\r' :: acc) rest2
          else if e = 't' then parseJStrGo fuel ('\t' :: acc) rest2
          else if e = 'u' then
            match rest2 with
            | h1 :: h2 :: h3 :: h4 :: rest3 =>
              match hexVal h1, hexVal h2, hexVal h3, hexVal h4 with
              | some a, some b, some c2, some d =>
                parseJStrGo fuel (Char.ofNat (((a * 16 + b) * 16 + c2) * 16 + d) :: acc) rest3
              | _, _, _, _ => none
            | _ => none
          else none
      else if c.toNat < 32 then none
      else parseJStrGo fuel (c :: acc) rest

/-- Split a character list at its leading run of decimal digits. -/
def takeDigits (l : List Char) : List Char × List Char :=
  (l.takeWhile isDigitC, l.dropWhile isDigitC)

/-- Parse a JSON number token (sign, integer part without leading zeros,
optional fraction, optional exponent), returning its exact decimal value. -/
def parseJNum (l : List Char) : Option (Json × List Char) :=
  let signSplit : Bool × List Char :=
    match l with
    | c :: rest => if c = '-' then (true, rest) else (false, l)
    | [] => (false, [])
  let neg := signSplit.1
  match signSplit.2 with
  | [] => none
  | c :: rest =>
    if !isDigitC c then none
    else if c = '0' && (match rest with | d :: _ => isDigitC d | [] => false) then none
    else
      let intSplit := takeDigits (c :: rest)
      let intDs := intSplit.1
      let afterInt := intSplit.2
      let fracStep : Option (List Char × List Char) :=
        match afterInt with
        | p :: l2 =>
          if p = '.' then
            match takeDigits l2 with
            | ([], _) => none
            | (ds, l3) => some (ds, l3)
          else some ([], afterInt)
        | [] => some ([], [])
      match fracStep with
      | none => none
      | some (fracDs, afterFrac) =>
        let expStep : Option (Int × List Char) :=
          match afterFrac with
          | p :: l2 =>
            if p = 'e' || p = 'E' then
              let expSign : Bool × List Char :=
                match l2 with
                | s :: l3 => if s = '-' then (true, l3) else if s = '+' then (false, l3) else (false, l2)
                | [] => (false, [])
              match takeDigits expSign.2 with
              | ([], _) => none
              | (ds, l4) =>
                some ((if expSign.1 then -(digitsToNat ds : Int) else (digitsToNat ds : Int)), l4)
            else some (0, afterFrac)
          | [] => some (0, [])
        match expStep with
        | none => none
        | some (e, restOut) =>
          let mantNat := digitsToNat (intDs ++ fracDs)
          let mant : Int := if neg then -(mantNat : Int) else (mantNat : Int)
          some (Json.num mant (e - (fracDs.length : Int)), restOut)

mutual

/-- Parse a JSON value (fuel-bounded recursive descent over the JSON
grammar accepted by JSON.parse). -/
def parseJVal : Nat → List Char → Option (Json × List Char)
  | 0, _ => none
  | fuel + 1, input =>
    let l := input.dropWhile isJsonWs
    match l with
    | [] => none
    | c :: rest =>
      if c = 'n' then
        if startsWithL l ['n', 'u', 'l', 'l'] then some (.null, l.drop 4) else none
      else if c = 't' then
        if startsWithL l ['t', 'r', 'u', 'e'] then some (.bool true, l.drop 4) else none
      else if c = 'f' then
        if startsWithL l ['f', 'a', 'l', 's', 'e'] then some (.bool false, l.drop 5) else none
      else if c = '"' then
        (parseJStrGo (rest.length + 1) [] rest).map (fun p => (Json.str p.1, p.2))
      else if c = '[' then
        match rest.dropWhile isJsonWs with
        | b :: r2 =>
          if b = ']' then some (.arr [], r2)
          else
            match parseJArrItems fuel rest with
            | some (xs, r3) => some (.arr xs, r3)
            | none => none
        | [] => none
      else if c = lbraceC then
        match rest.dropWhile isJsonWs with
        | b :: r2 =>
          if b = rbraceC then some (.obj [], r2)
          else
            match parseJObjItems fuel rest with
            | some (fs, r3) => some (.obj fs, r3)
            | none => none
        | [] => none
      else parseJNum l

/-- Parse the comma-separated items of a JSON array, up to and including
the closing bracket. -/
def parseJArrItems : Nat → List Char → Option (List Json × List Char)
  | 0, _ => none
  | fuel + 1, l =>
    match parseJVal fuel l with
    | none => none
    | some (j, r) =>
      match r.dropWhile isJsonWs with
      | ',' :: r2 =>
        match parseJArrItems fuel r2 with
        | some (xs, r3) => some (j :: xs, r3)
        | none => none
      | b :: r2 => if b = ']' then some ([j], r2) else none
      | [] => none

/-- Parse the comma-separated members of a JSON object, up to and
including the closing brace. -/
def parseJObjItems : Nat → List Char → Option (List (String × Json) × List Char)
  | 0, _ => none
  | fuel + 1, input =>
    match input.dropWhile isJsonWs with
    | c :: rest =>
      if c = '"' then
        match parseJStrGo (rest.length + 1) [] rest with
        | some (k, r) =>
          match r.dropWhile isJsonWs with
          | ':' :: r2 =>
            match parseJVal fuel r2 with
            | some (v, r3) =>
              match r3.dropWhile isJsonWs with
              | ',' :: r4 =>
                match parseJObjItems fuel r4 with
                | some (fs, r5) => some ((k, v) :: fs, r5)
                | none => none
              | b :: r4 => if b = rbraceC then some ([(k, v)], r4) else none
              | [] => none
            | none => none
          | _ => none
        | none => none
      else none
    | [] => none

end

/-- Model of JSON.parse on a string argument: parse one JSON value and
require only whitespace after it; any syntax error yields no value
(a thrown SyntaxError in JavaScript). -/
def jsonParse (s : String) : Option Json :=
  match parseJVal (2 * s.length + 2) s.data with
  | some (j, r) => if (r.dropWhile isJsonWs).isEmpty then some j else none
  | none => none

/-! ## Models of the concrete regular expressions used by parsing.ts -/

/-- Inner text of the first fenced json code block, modelling the
jsonBlockPattern regular expression of parsing.ts (a literal opening
fence, a lazy any-character group, a literal closing fence). -/
def jsonBlockInner (text : String) : Option String :=
  match findSubIdx "```json\n".data text.data with
  | none => none
  | some i =>
    let after := text.data.drop (i + 8)
    match findSubIdx "\n```".data after with
    | none => none
    | some j => some (String.mk (after.take j))

/-- JavaScript line terminators (not matched by the dot in a regular
expression without the dot-all flag). -/
def isLineTerm (c : Char) : Bool :=
  c = '\n' || c = '\r' || c.toNat = 8232 || c.toNat = 8233

/-- After an opening quote of the array pattern of parseJsonArrayFromText,
lazily look for a closing quote followed by optional whitespace and a
closing bracket; the lazy dot group absorbs a failed closing quote and
cannot cross a line terminator.  Returns the number of characters of the
match from the current position through the closing bracket. -/
def arrCloseScan (q : Char) : Nat → List Char → Option Nat
  | 0, _ => none
  | fuel + 1, l =>
    match l with
    | [] => none
    | c :: rest =>
      if c = q then
        let ws := rest.takeWhile isJsWs
        match rest.dropWhile isJsWs with
        | b :: _ =>
          if b = ']' then some (1 + ws.length + 1)
          else (arrCloseScan q fuel rest).map (· + 1)
        | [] => (arrCloseScan q fuel rest).map (· + 1)
      else if isLineTerm c then none
      else (arrCloseScan q fuel rest).map (· + 1)

/-- Try the array pattern of parseJsonArrayFromText at the head of the
input: an opening bracket, optional whitespace, a quote, a lazy group,
the same quote, optional whitespace, a closing bracket.  Returns the
length of the full match. -/
def arrTryAt (l : List Char) : Option Nat :=
  match l with
  | [] => none
  | c :: rest =>
    if c = '[' then
      let ws := rest.takeWhile isJsWs
      match rest.dropWhile isJsWs with
      | q :: rest3 =>
        if q = quoteC || q = '"' then
          (arrCloseScan q (rest3.length + 1) rest3).map (fun n => 1 + ws.length + 1 + n)
        else none
      | [] => none
    else none

/-- Leftmost match of the array pattern: try every start position from
the left and return the matched text of the first success. -/
def arrScanGo : Nat → List Char → Option (List Char)
  | 0, _ => none
  | fuel + 1, l =>
    match arrTryAt l with
    | some n => some (l.take n)
    | none =>
      match l with
      | [] => none
      | _ :: rest => arrScanGo fuel rest

/-- Full text of the first match of the bracket-delimited quoted-array
pattern of parseJsonArrayFromText. -/
def arrayPatternFull (text : String) : Option String :=
  (arrScanGo (text.length + 1) text.data).map String.mk

/-- Full text of the first match of the lazy brace-delimited object
pattern of parseJSONObjectFromText: the first opening brace paired with
the first closing brace after it (the lazy group spans line breaks). -/
def objectPatternFull (text : String) : Option String :=
  match findSubIdx [lbraceC] text.data with
  | none => none
  | some i =>
    let after := text.data.drop i
    match findSubIdx [rbraceC] (after.drop 1) with
    | none => none
    | some j => some (String.mk (after.take (j + 2)))

/-- Split a character list at the first single quote, returning the
characters before it and the characters after it. -/
def splitNextQuote : List Char → Option (List Char × List Char)
  | [] => none
  | c :: rest =>
    if c = quoteC then some ([], rest)
    else
      match splitNextQuote rest with
      | some (a, b) => some (c :: a, b)
      | none => none

/-- One left-to-right global pass of the quote-normalization replacement
of parseJsonArrayFromText: a single quote not preceded by a backslash,
a quote-free group, a single quote, with a lookahead comma, closing
bracket or closing brace, is rewritten to a double-quoted group; the
lookahead character is not consumed and scanning resumes at it. -/
def normQuotesGo : Nat → Option Char → List Char → List Char
  | 0, _, l => l
  | _ + 1, _, [] => []
  | fuel + 1, prev, c :: rest =>
    if c = quoteC ∧ prev ≠ some backslashC then
      match splitNextQuote rest with
      | some (content, next :: after2) =>
        if next = ',' || next = ']' || next = rbraceC then
          '"' :: (content ++ '"' :: normQuotesGo fuel (some quoteC) (next :: after2))
        else c :: normQuotesGo fuel (some c) rest
      | _ => c :: normQuotesGo fuel (some c) rest
    else c :: normQuotesGo fuel (some c) rest

/-- Rewrite unescaped single-quoted string literals (with a closing
delimiter lookahead) to double-quoted ones, as parseJsonArrayFromText
does before each of its first two JSON.parse attempts. -/
def normalizeQuotes (s : String) : String :=
  String.mk (normQuotesGo (s.length + 1) none s.data)

/-! ## parsing.ts: text-to-structured-value parsers -/

/-- The final step of parseJsonArrayFromText: the parsed value is
returned only when it is an array. -/
def keepIfArray : Option Json → Option (List Json)
  | some (Json.arr xs) => some xs
  | _ => none

/-- Embeds parseJsonArrayFromText (packages/core/src/parsing.ts).
Tier 1 parses the first fenced json block after quote normalization;
tier 2, tried when the current value is still JavaScript-falsy, parses
the first bracket-delimited quoted-array match after quote
normalization, keeping the previous value if that parse throws;
tier 3, again only when the value is still falsy, parses the raw text
(with no quote normalization).  The parsed value is returned only when
it is an array. -/
def parseJsonArrayFromText (text : String) : Option (List Json) :=
  let j1 : Option Json :=
    match jsonBlockInner text with
    | some inner => jsonParse (normalizeQuotes inner)
    | none => none
  let j2 : Option Json :=
    if jsTruthyOpt j1 then j1
    else
      match arrayPatternFull text with
      | some m =>
        match jsonParse (normalizeQuotes m) with
        | some v => some v
        | none => j1
      | none => j1
  let j3 : Option Json :=
    if jsTruthyOpt j2 then j2
    else
      match jsonParse text with
      | some v => some v
      | none => j2
  keepIfArray j3

/-- Final type dispatch of parseJSONObjectFromText: return the value if
it is a non-null object; re-delegate the whole text to
parseJsonArrayFromText if it is an array; otherwise no value. -/
def finishJsonObject (text : String) (j : Json) : Option Json :=
  match j with
  | .obj fs => some (.obj fs)
  | .arr _ => (parseJsonArrayFromText text).map Json.arr
  | _ => none

/-- Embeds parseJSONObjectFromText (packages/core/src/parsing.ts).
A parse failure inside a matched fenced block or brace span returns no
value immediately; a still-falsy value falls through to parsing the raw
text, whose failure also returns no value. -/
def parseJSONObjectFromText (text : String) : Option Json :=
  let phase1 : Option (Option Json) :=
    match jsonBlockInner text with
    | some block =>
      match jsonParse block with
      | some j => some (some j)
      | none => none
    | none =>
      match objectPatternFull text with
      | some m =>
        match jsonParse m with
        | some j => some (some j)
        | none => none
      | none => some none
  match phase1 with
  | none => none
  | some jd =>
    if jsTruthyOpt jd then
      match jd with
      | some j => finishJsonObject text j
      | none => none
    else
      match jsonParse text with
      | none => none
      | some j => finishJsonObject text j

/-- Embeds parseTagContent (packages/core/src/parsing.ts): the first
non-greedy tag pair, with surrounding whitespace stripped by the
pattern; returns the trimmed inner text only when it is nonempty. -/
def parseTagContent (text : String) (tag : String) : Option String :=
  let opener := "<" ++ tag ++ ">"
  let closer := "</" ++ tag ++ ">"
  match findSubIdx opener.data text.data with
  | none => none
  | some i =>
    let after := text.data.drop (i + opener.length)
    match findSubIdx closer.data after with
    | none => none
    | some j =>
      let inner := jsTrim (String.mk (after.take j))
      if inner = "" then none else some inner

/-- The three verdicts of the conversational gate. -/
inductive RespondVerdict where
  | respond : RespondVerdict
  | ignore : RespondVerdict
  | stop : RespondVerdict
  deriving DecidableEq, Repr

/-- Embeds parseShouldRespondFromText (packages/core/src/parsing.ts):
first line, trimmed, first bracket removed, upper-cased, first closing
bracket removed, exact-matched against the three verdicts; otherwise a
substring search on the original text in the fixed order
RESPOND, IGNORE, STOP. -/
def parseShouldRespondFromText (text : String) : Option RespondVerdict :=
  let processed :=
    String.mk (removeFirstC ']'
      ((removeFirstC '[' (jsTrimList (text.data.takeWhile (· ≠ '\n')))).map Char.toUpper))
  if processed = "RESPOND" then some .respond
  else if processed = "IGNORE" then some .ignore
  else if processed = "STOP" then some .stop
  else if containsSub text "RESPOND" then some .respond
  else if containsSub text "IGNORE" then some .ignore
  else if containsSub text "STOP" then some .stop
  else none

/-- The recognized keywords of parseBooleanFromText with their boolean
values; the affirmative set is exactly YES, TRUE, ON, ENABLE. -/
def boolWords : List (String × Bool) :=
  [("YES", true), ("NO", false), ("TRUE", true), ("FALSE", false),
   ("ON", true), ("OFF", false), ("ENABLE", true), ("DISABLE", false)]

/-- Word characters of the regular-expression word-boundary class. -/
def isWordChar (c : Char) : Bool :=
  (48 ≤ c.toNat && c.toNat ≤ 57) || (65 ≤ c.toNat && c.toNat ≤ 90) ||
    (97 ≤ c.toNat && c.toNat ≤ 122) || c = '_'

/-- Case-insensitive match of an upper-case keyword at the head of the
input; returns the remaining input on success. -/
def matchWordAt : List Char → List Char → Option (List Char)
  | [], rest => some rest
  | _ :: _, [] => none
  | a :: ws, b :: bs => if a = Char.toUpper b then matchWordAt ws bs else none

/-- Try each keyword alternative at the current position, requiring a
word boundary after the match. -/
def tryWordList : List (String × Bool) → List Char → Option Bool
  | [], _ => none
  | (w, b) :: ws, l =>
    match matchWordAt w.data l with
    | some rest =>
      match rest with
      | [] => some b
      | c :: _ => if isWordChar c then tryWordList ws l else some b
    | none => tryWordList ws l

/-- Scan for the leftmost word-boundary keyword occurrence. -/
def parseBoolGo : Nat → Option Char → List Char → Option Bool
  | 0, _, _ => none
  | _ + 1, _, [] => none
  | fuel + 1, prev, c :: rest =>
    let boundaryOk : Bool :=
      match prev with
      | some p => !isWordChar p
      | none => true
    match (if boundaryOk then tryWordList boolWords (c :: rest) else none) with
    | some b => some b
    | none => parseBoolGo fuel (some c) rest

/-- Embeds parseBooleanFromText (packages/core/src/parsing.ts): the
first case-insensitive whole-word occurrence of one of the eight
keywords decides the result; no keyword yields no value. -/
def parseBooleanFromText (text : String) : Option Bool :=
  parseBoolGo (text.length + 1) none text.data

/-- The four independent engagement booleans (ActionResponse). -/
structure ActionResponse where
  like : Bool
  retweet : Bool
  quote : Bool
  reply : Bool
  deriving DecidableEq, Repr

/-- Embeds parseActionResponseFromText (packages/core/src/parsing.ts):
case-sensitive literal presence of each bracketed action tag. -/
def parseActionResponseFromText (text : String) : ActionResponse :=
  { like := containsSub text "[LIKE]"
    retweet := containsSub text "[RETWEET]"
    quote := containsSub text "[QUOTE]"
    reply := containsSub text "[REPLY]" }

/-! ## Retrying generation helpers (parsing.ts generation module)

A call to generateText is modelled by an oracle giving, for each attempt
index, either a thrown error or the model's response text.  The shared
while-loop of the retrying helpers (MAX_RETRIES = 5, delay starting at
1000 ms and doubling after every failed attempt, including one final
wait before the terminal error) is modelled by a fuel recursion whose
fuel is the number of remaining loop iterations. -/

/-- Outcome of one awaited generateText call. -/
inductive GenOut where
  | threw : GenOut
  | ok (response : String) : GenOut

/-- The run of a retrying helper: its final result (the parsed value or
the terminal error message), the number of attempts made, and the list
of waits performed, in milliseconds. -/
structure RetryTrace (α : Type) where
  result : Except String α
  attempts : Nat
  delays : List Nat
  deriving Repr

/-- The while-loop shared by the retrying helpers: while the retry count
is below 5, run one attempt; a parseable result returns at once, and a
failure waits for the current delay, doubles it and increments the
count.  Exhaustion raises the helper's terminal message. -/
def retryGo (step : Nat → Option α) (failMsg : String) :
    Nat → Nat → Nat → List Nat → RetryTrace α
  | 0, count, _, ds => ⟨.error failMsg, count, ds⟩
  | fuel + 1, count, delay, ds =>
    match step count with
    | some v => ⟨.ok v, count + 1, ds⟩
    | none => retryGo step failMsg fuel (count + 1) (delay * 2) (ds ++ [delay])

/-- Run a retrying helper from its initial state: retry count 0, delay
1000 ms, MAX_RETRIES = 5 remaining iterations. -/
def runWithRetries (step : Nat → Option α) (failMsg : String) : RetryTrace α :=
  retryGo step failMsg 5 0 1000 []

/-- One attempt of generateShouldRespond: generateText, the response
tag extraction, then the verdict parser; a thrown call or an
unparseable response is a failed attempt. -/
def shouldRespondStep (gen : Nat → GenOut) (k : Nat) : Option RespondVerdict :=
  match gen k with
  | .threw => none
  | .ok r => (parseTagContent r "response").bind parseShouldRespondFromText

/-- Embeds generateShouldRespond (parsing.ts generation module). -/
def generateShouldRespond (gen : Nat → GenOut) : RetryTrace RespondVerdict :=
  runWithRetries (shouldRespondStep gen) "generateShouldRespond failed after 5 retries"

/-- One attempt of generateTrueOrFalse: generateText then the boolean
parser on the trimmed response; a parsed false still succeeds (the
source checks the parse against null, not for truthiness). -/
def trueOrFalseStep (gen : Nat → GenOut) (k : Nat) : Option Bool :=
  match gen k with
  | .threw => none
  | .ok r => parseBooleanFromText (jsTrim r)

/-- Embeds generateTrueOrFalse (parsing.ts generation module); the
stop-sequence construction before the loop is absorbed into the
generateText oracle. -/
def generateTrueOrFalse (gen : Nat → GenOut) : RetryTrace Bool :=
  runWithRetries (trueOrFalseStep gen) "Failed to generate boolean response after maximum retries"

/-- One attempt of generateObjectDeprecated: generateText, tag
extraction, then parseJSONObjectFromText; a missing tag gives a null
argument whose parse yields no value. -/
def objectDeprecatedStep (gen : Nat → GenOut) (k : Nat) : Option Json :=
  match gen k with
  | .threw => none
  | .ok r => (parseTagContent r "response").bind parseJSONObjectFromText

/-- Embeds generateObjectDeprecated (parsing.ts generation module),
including the early null return on an empty context. -/
def generateObjectDeprecated (context : String) (gen : Nat → GenOut) : RetryTrace Json :=
  if context = "" then ⟨.ok .null, 0, []⟩
  else runWithRetries (objectDeprecatedStep gen) "Failed to generate object after maximum retries"

/-- One attempt of generateObjectArray: generateText, tag extraction,
then parseJsonArrayFromText (an empty array is truthy and succeeds). -/
def objectArrayStep (gen : Nat → GenOut) (k : Nat) : Option (List Json) :=
  match gen k with
  | .threw => none
  | .ok r => (parseTagContent r "response").bind parseJsonArrayFromText

/-- Embeds generateObjectArray (parsing.ts generation module), including
the early empty-array return on an empty context. -/
def generateObjectArray (context : String) (gen : Nat → GenOut) : RetryTrace (List Json) :=
  if context = "" then ⟨.ok [], 0, []⟩
  else runWithRetries (objectArrayStep gen) "Failed to generate object array after maximum retries"

/-- One attempt of the retrying generateTweetActions: generateText, tag
extraction, then parseActionResponseFromText; a missing tag makes the
regular expressions test the coerced string "null".  The resulting
actions object is always truthy, so only a thrown call fails. -/
def tweetActionsStep (gen : Nat → GenOut) (k : Nat) : Option ActionResponse :=
  match gen k with
  | .threw => none
  | .ok r => some (parseActionResponseFromText ((parseTagContent r "response").getD "null"))

/-- Embeds the retrying generateTweetActions (parsing.ts generation
module). -/
def generateTweetActionsRetry (gen : Nat → GenOut) : RetryTrace ActionResponse :=
  runWithRetries (tweetActionsStep gen) "Failed to generate tweet actions after maximum retries"

/-- The five waits performed when every attempt of a retrying helper
fails: 1 s, 2 s, 4 s, 8 s, 16 s. -/
def allRetryDelays : List Nat := [1000, 2000, 4000, 8000, 16000]

/-- Embeds the schema-based generateTweetActions (second generation
module in parsing.ts): the awaited generateObject call either raises or
returns a schema-validated ActionResponse; a raise is answered by the
all-false ActionResponse. -/
def generateTweetActionsSchema (gen : Except String ActionResponse) : ActionResponse :=
  match gen with
  | .ok a => a
  | .error _ => { like := false, retweet := false, quote := false, reply := false }

/-! ## Token-budget trimming (trimTokens / truncateTiktoken / truncateAuto) -/

/-- An encode/decode pair as exposed by a tokenizer library; either
operation may throw. -/
structure Tokenizer where
  encode : String → Except String (List Nat)
  decode : List Nat → Except String String

/-- The two tokenizer families trimTokens can dispatch to. -/
inductive TokKind where
  | tiktoken : TokKind
  | auto : TokKind
  deriving DecidableEq, Repr

/-- The ambient state trimTokens reads: the two runtime settings and the
tokenizer obtained for a family and model name. -/
structure TrimEnv where
  tokenizerModel : Option String
  tokenizerType : Option String
  tokenizers : TokKind → String → Tokenizer

/-- JavaScript falsiness of a setting value (absent or empty). -/
def falsySetting : Option String → Bool
  | none => true
  | some s => s = ""

/-- Embeds truncateTiktoken (parsing.ts generation module): encode; if
within budget return the context unchanged; otherwise decode the last
maxTokens tokens; any thrown tokenizer error falls back to a character
tail of four characters per token. -/
def truncateTiktokenM (tok : Tokenizer) (context : String) (maxTokens : Nat) : String :=
  match tok.encode context with
  | .error _ => strSliceNeg context (maxTokens * 4)
  | .ok tokens =>
    if tokens.length ≤ maxTokens then context
    else
      match tok.decode (tokens.drop (tokens.length - maxTokens)) with
      | .ok s => s
      | .error _ => strSliceNeg context (maxTokens * 4)

/-- Embeds truncateAuto (parsing.ts generation module); its body is the
same algorithm as truncateTiktoken over the model-native tokenizer. -/
def truncateAutoM (tok : Tokenizer) (context : String) (maxTokens : Nat) : String :=
  match tok.encode context with
  | .error _ => strSliceNeg context (maxTokens * 4)
  | .ok tokens =>
    if tokens.length ≤ maxTokens then context
    else
      match tok.decode (tokens.drop (tokens.length - maxTokens)) with
      | .ok s => s
      | .error _ => strSliceNeg context (maxTokens * 4)

/-- The TokenizerType constants of the core type module: the
model-native tokenizer family and the byte-pair tiktoken family. -/
def tokenizerTypeAuto : String := "auto"

/-- The tiktoken member of the TokenizerType constants. -/
def tokenizerTypeTikToken : String := "tiktoken"

/-- Embeds trimTokens (parsing.ts generation module): an empty context
is returned unchanged before the budget check; a non-positive budget
raises; missing settings select the default gpt-4o tiktoken tokenizer;
otherwise the setting-selected family and model are used, with an
unsupported type falling back to the default after a warning. -/
def trimTokens (env : TrimEnv) (context : String) (maxTokens : Int) : Except String String :=
  if context = "" then .ok ""
  else if maxTokens ≤ 0 then .error "maxTokens must be positive"
  else
    let m := maxTokens.toNat
    if falsySetting env.tokenizerModel || falsySetting env.tokenizerType then
      .ok (truncateTiktokenM (env.tokenizers .tiktoken "gpt-4o") context m)
    else if env.tokenizerType.getD "" = tokenizerTypeAuto then
      .ok (truncateAutoM (env.tokenizers .auto (env.tokenizerModel.getD "")) context m)
    else if env.tokenizerType.getD "" = tokenizerTypeTikToken then
      .ok (truncateTiktokenM (env.tokenizers .tiktoken (env.tokenizerModel.getD "")) context m)
    else .ok (truncateTiktokenM (env.tokenizers .tiktoken "gpt-4o") context m)

/-- The tokenizer trimTokens dispatches to for a given environment,
written out along the same branches as the source dispatch. -/
def selectedTokenizer (env : TrimEnv) : Tokenizer :=
  if falsySetting env.tokenizerModel || falsySetting env.tokenizerType then
    env.tokenizers .tiktoken "gpt-4o"
  else if env.tokenizerType.getD "" = tokenizerTypeAuto then
    env.tokenizers .auto (env.tokenizerModel.getD "")
  else if env.tokenizerType.getD "" = tokenizerTypeTikToken then
    env.tokenizers .tiktoken (env.tokenizerModel.getD "")
  else env.tokenizers .tiktoken "gpt-4o"

/-! ## SQLite persistence adapter: createMemory -/

/-- A stored row of the memories table. -/
structure MemoryRow where
  id : String
  type : String
  content : String
  userId : String
  roomId : String
  agentId : String
  uniq : Nat
  createdAt : Int
  deriving DecidableEq, Repr

/-- The caller-visible Memory argument of createMemory; the id and the
creation time are optional, and the caller's unique flag is carried but,
as the claim under test observes, never consulted by the adapter. -/
structure MemoryInput where
  id : Option String
  userId : String
  roomId : String
  agentId : String
  content : String
  uniqueRequested : Bool
  createdAt : Option Int
  deriving DecidableEq, Repr

/-- Modelled from the spec: the memories table (created by
sqliteTables.ts, which is not among the provided sources) keys rows by
the memory id as its primary key, so an INSERT OR REPLACE statement
deletes any row conflicting on the id before inserting the new row. -/
def insertOrReplaceMemories (db : List MemoryRow) (row : MemoryRow) : List MemoryRow :=
  db.filter (fun r => !(r.id = row.id)) ++ [row]

/-- Embeds SqliteDatabaseAdapter.createMemory
(packages/adapter-sqlite/src/index.ts): the stored unique column is the
constant true, the id defaults to a fresh uuid and the creation time to
the current time, and the row is written with INSERT OR REPLACE. -/
def createMemory (db : List MemoryRow) (m : MemoryInput) (tableName : String)
    (freshId : String) (now : Int) : List MemoryRow :=
  let isUnique := true
  let row : MemoryRow :=
    { id := m.id.getD freshId
      type := tableName
      content := m.content
      userId := m.userId
      roomId := m.roomId
      agentId := m.agentId
      uniq := if isUnique then 1 else 0
      createdAt := m.createdAt.getD now }
  insertOrReplaceMemories db row

/-! ## SQLite persistence adapter: createKnowledge -/

/-- A raised better-sqlite3 error: its code attribute and its message. -/
structure SqlError where
  code : String
  message : String
  deriving DecidableEq, Repr

/-- A stored row of the knowledge table. -/
structure KnowledgeRow where
  id : String
  agentId : Option String
  content : String
  createdAt : Int
  isMain : Nat
  originalId : Option String
  chunkIndex : Option Int
  isShared : Nat
  deriving DecidableEq, Repr

/-- The content metadata of a knowledge item. -/
structure KnowledgeMeta where
  isMain : Bool
  originalId : Option String
  chunkIndex : Option Int
  isShared : Bool
  deriving DecidableEq, Repr

/-- The RAGKnowledgeItem argument of createKnowledge; the serialized
content JSON is carried opaquely and the metadata may be absent. -/
structure KnowledgeItem where
  id : String
  agentId : String
  contentSerialized : String
  metadata : Option KnowledgeMeta
  createdAt : Option Int
  deriving DecidableEq, Repr

/-- The error better-sqlite3 raises on a primary-key violation of the
knowledge table: the code attribute carries the extended result-code
name, while the message is the SQLite error message, which does not
contain that name. -/
def pkErrorKnowledge : SqlError :=
  { code := "SQLITE_CONSTRAINT_PRIMARYKEY"
    message := "UNIQUE constraint failed: knowledge.id" }

/-- Execution of the INSERT statement of createKnowledge inside its
transaction: a duplicate id raises the primary-key error; otherwise an
injected statement fault (modelling any other database error) is
raised, and in its absence the row is appended. -/
def insertKnowledgeRow (db : List KnowledgeRow) (row : KnowledgeRow)
    (fault : Option SqlError) : Except SqlError (List KnowledgeRow) :=
  if db.any (fun r => r.id = row.id) then .error pkErrorKnowledge
  else
    match fault with
    | some e => .error e
    | none => .ok (db ++ [row])

/-- Result of a createKnowledge call: the table afterwards and the
error it re-raised, if any. -/
structure CreateKnowledgeOutcome where
  db : List KnowledgeRow
  raised : Option SqlError
  deriving DecidableEq, Repr

/-- Embeds SqliteDatabaseAdapter.createKnowledge
(packages/adapter-sqlite/src/index.ts): the row is built from the item
(a shared item stores a null agent id), the insert runs in a
transaction, and the catch block swallows a primary-key error on a
shared item, re-raises an error on a non-shared item when the error
message does not contain the token SQLITE_CONSTRAINT_PRIMARYKEY, and
swallows everything else with a debug log. -/
def createKnowledge (db : List KnowledgeRow) (item : KnowledgeItem) (now : Int)
    (fault : Option SqlError) : CreateKnowledgeOutcome :=
  let isSharedB := (item.metadata.map (fun m => m.isShared)).getD false
  let row : KnowledgeRow :=
    { id := item.id
      agentId := if isSharedB then none else some item.agentId
      content := item.contentSerialized
      createdAt := item.createdAt.getD now
      isMain := if (item.metadata.map (fun m => m.isMain)).getD false then 1 else 0
      originalId := item.metadata.bind (fun m => m.originalId)
      chunkIndex := item.metadata.bind (fun m => m.chunkIndex)
      isShared := if isSharedB then 1 else 0 }
  match insertKnowledgeRow db row fault with
  | .ok db2 => ⟨db2, none⟩
  | .error err =>
    let isPrimaryKeyError := err.code = "SQLITE_CONSTRAINT_PRIMARYKEY"
    if isSharedB ∧ isPrimaryKeyError then ⟨db, none⟩
    else if ¬ isSharedB ∧ ¬ (containsSub err.message "SQLITE_CONSTRAINT_PRIMARYKEY" = true) then
      ⟨db, some err⟩
    else ⟨db, none⟩

/-! ## Prediction-market bet helpers (plugin-depin blockchain.ts) -/

/-- Model of viem parseEther on a decimal string: an optional sign,
integer digits, an optional dot and fraction digits; the value is
rounded half-up at 18 decimal places.  Any other shape raises the
invalid-decimal error. -/
def parseEtherM (s : String) : Except String Int :=
  let signSplit : Bool × List Char :=
    match s.data with
    | c :: rest => if c = '-' then (true, rest) else (false, s.data)
    | [] => (false, [])
  let intSplit := takeDigits signSplit.2
  let fracPart : Option (List Char) :=
    match intSplit.2 with
    | [] => some []
    | p :: l2 =>
      if p = '.' then
        match takeDigits l2 with
        | (ds, []) => some ds
        | (_, _ :: _) => none
      else none
  match fracPart with
  | none => .error "Invalid decimal number"
  | some fracDs =>
    let frac18 := fracDs.take 18
    let restDs := fracDs.drop 18
    let carry : Nat :=
      match restDs with
      | [] => 0
      | d :: _ => if 5 ≤ d.toNat - 48 then 1 else 0
    let scaled : Nat :=
      digitsToNat intSplit.1 * 10 ^ 18 +
        digitsToNat frac18 * 10 ^ (18 - frac18.length) + carry
    .ok (if signSplit.1 then -(scaled : Int) else (scaled : Int))

/-- Embeds getBetAmount (packages/plugin-depin/src/helpers/
blockchain.ts): a non-positive allowance raises at once; an amount
below the contract minimum raises; the amount is clamped to the
contract maximum; an allowance below the clamped amount raises. -/
def getBetAmount (amount allowance maxBet minBet : Int) : Except String Int :=
  if allowance ≤ 0 then .error "Insufficient allowance"
  else if amount < minBet then .error "Bet amount is less than the minimum bet"
  else
    let betAmount : Int := if amount > maxBet then maxBet else amount
    if allowance < betAmount then .error "Insufficient allowance"
    else .ok betAmount

/-- The on-chain state read and exercised by placeBet: the bettor's
ERC-20 allowance to the agent wallet, the contract's bet bounds, and
whether the simulation and the transaction receipt succeed. -/
structure ChainEnv where
  allowance : Int
  maxBet : Int
  minBet : Int
  simSucceeds : Bool
  receiptSuccess : Bool

/-- The success payload of placeBet (the formatted amount is kept in
base units here). -/
structure PlaceBetOk where
  predictionId : Int
  betAmountWei : Int
  outcome : Bool
  deriving DecidableEq, Repr

/-- The observable run of placeBet: its result and the bet amounts that
were passed to contract-call simulation. -/
structure PlaceBetTrace where
  result : Except String PlaceBetOk
  simulatedAmounts : List Int
  deriving Repr

/-- Embeds placeBet (packages/plugin-depin/src/helpers/blockchain.ts):
the requested amount is converted to base units with parseEther,
getBetAmount computes the allowed bet amount (raising before anything
is simulated), then the placeBetForAccount call is simulated, signed and
broadcast, and a failed receipt raises after the simulation. -/
def placeBet (env : ChainEnv) (predictionId : Int) (outcome : Bool)
    (amount : String) : PlaceBetTrace :=
  match parseEtherM amount with
  | .error e => ⟨.error e, []⟩
  | .ok amountInWei =>
    match getBetAmount amountInWei env.allowance env.maxBet env.minBet with
    | .error e => ⟨.error e, []⟩
    | .ok betAmount =>
      if env.simSucceeds then
        if env.receiptSuccess then
          ⟨.ok ⟨predictionId, betAmount, outcome⟩, [betAmount]⟩
        else ⟨.error "Bet placement failed", [betAmount]⟩
      else ⟨.error "simulateContract reverted", [betAmount]⟩

/-! ## Daily chain analytics (plugin-depin iotexl1.ts) -/

/-- The nine daily metrics of L1DataTool. -/
inductive MetricKey where
  | transactions : MetricKey
  | txVolume : MetricKey
  | sumGas : MetricKey
  | avgGas : MetricKey
  | activeWallets : MetricKey
  | peakTps : MetricKey
  | tvl : MetricKey
  | holders : MetricKey
  | avgStakingDuration : MetricKey
  deriving DecidableEq, Repr

/-- The metric names used in the error log lines (the values of the
metrics table at the top of iotexl1.ts). -/
def metricName : MetricKey → String
  | .transactions => "transactions"
  | .txVolume => "tx_volume"
  | .sumGas => "sum_gas"
  | .avgGas => "avg_gas"
  | .activeWallets => "active_wallets"
  | .peakTps => "peak_tps"
  | .tvl => "tvl"
  | .holders => "holders"
  | .avgStakingDuration => "avg_staking_duration"

/-- The fetchers array of L1DataTool, in source order. -/
def fetcherOrder : List MetricKey :=
  [.transactions, .txVolume, .sumGas, .avgGas, .activeWallets,
   .peakTps, .tvl, .holders, .avgStakingDuration]

/-- The assembled L1DailyStats record. -/
structure L1DailyStats where
  date : String
  transactions : Int
  tx_volume : Int
  sum_gas : Int
  avg_gas : Int
  active_wallets : Int
  peak_tps : Int
  tvl : Int
  holders : Int
  avg_staking_duration : Int
  deriving DecidableEq, Repr

/-- Build an L1DailyStats from a per-metric field function. -/
def mkStats (date : String) (f : MetricKey → Int) : L1DailyStats :=
  { date := date
    transactions := f .transactions
    tx_volume := f .txVolume
    sum_gas := f .sumGas
    avg_gas := f .avgGas
    active_wallets := f .activeWallets
    peak_tps := f .peakTps
    tvl := f .tvl
    holders := f .holders
    avg_staking_duration := f .avgStakingDuration }

/-- The field of an L1DailyStats holding a given metric. -/
def statField (s : L1DailyStats) : MetricKey → Int
  | .transactions => s.transactions
  | .txVolume => s.tx_volume
  | .sumGas => s.sum_gas
  | .avgGas => s.avg_gas
  | .activeWallets => s.active_wallets
  | .peakTps => s.peak_tps
  | .tvl => s.tvl
  | .holders => s.holders
  | .avgStakingDuration => s.avg_staking_duration

/-- Embeds L1DataTool.getDailyData (packages/plugin-depin/src/schemas/
iotexl1.ts).  The date guard (input date no later than yesterday) is
abstracted by the dateOk flag; each fetcher is run through safeFetch,
which turns a raise into a null value with an error string; logErrors
logs one line per failed fetcher in fetchers order; buildResults
substitutes zero for a null value.  The per-fetcher outcomes are the
fetch oracle.  Returns the stats and the logged error lines. -/
def getDailyData (dateOk : Bool) (fetch : MetricKey → Except String Int)
    (date : String) : Except String (L1DailyStats × List String) :=
  if !dateOk then .error "Can only fetch historical data (yesterday or earlier)"
  else
    let valueOf : MetricKey → Int := fun k =>
      match fetch k with
      | .ok v => v
      | .error _ => 0
    let logs := fetcherOrder.filterMap fun k =>
      match fetch k with
      | .error e => some ("Error fetching " ++ metricName k ++ ": " ++ e)
      | .ok _ => none
    .ok (mkStats date valueOf, logs)

/-! ## Social-media interaction loop: candidate handling -/

/-- The candidate-tweet fields used by the sort and the authored-by-self
filter. -/
structure Tweet where
  id : String
  userId : String
  deriving DecidableEq, Repr

/-- Character-list comparison modelling localeCompare order on the
digit strings used as platform ids. -/
def charListLe : List Char → List Char → Bool
  | [], _ => true
  | _ :: _, [] => false
  | a :: as, b :: bs =>
    if a.toNat < b.toNat then true
    else if b.toNat < a.toNat then false
    else charListLe as bs

/-- Ordering of tweet ids used by the candidate sort. -/
def idLe (s t : String) : Bool := charListLe s.data t.data

/-- Stable insertion into a sorted list (a later-arriving element goes
after equal ids, matching the stable platform sort). -/
def insertById (t : Tweet) : List Tweet → List Tweet
  | [] => [t]
  | u :: rest => if idLe u.id t.id then u :: insertById t rest else t :: u :: rest

/-- Stable sort of the candidate tweets by platform id ascending. -/
def sortCandidatesById (l : List Tweet) : List Tweet :=
  l.foldl (fun acc t => insertById t acc) []

/-- Embeds the candidate preparation of
TwitterInteractionClient.handleTwitterInteractions
(packages/client-twitter/src/interactions.ts): the sort call mutates
the candidate array in place, while the chained filter of tweets
authored by the agent produces a new array whose value is not assigned
to anything, so the candidate set iterated by the loop is only
sorted. -/
def candidatesBeforeLoop (candidates : List Tweet) (profileId : String) : List Tweet :=
  let sorted := sortCandidatesById candidates
  let _filtered := sorted.filter (fun t => !(t.userId = profileId))
  sorted

/-- Modelled from the spec: the candidate list the specification
describes, sorted by platform id ascending with the agent's own posts
dropped before the loop. -/
def candidatesBeforeLoopSpec (candidates : List Tweet) (profileId : String) : List Tweet :=
  (sortCandidatesById candidates).filter (fun t => !(t.userId = profileId))

/-! ## Specification-side restatements used for comparison -/

/-- The first extraction tier of parseJsonArrayFromText as the
specification describes it: the fenced json block, quote-normalized,
parsed. -/
def fencedTier (text : String) : Option Json :=
  match jsonBlockInner text with
  | some inner => jsonParse (normalizeQuotes inner)
  | none => none

/-- The second extraction tier as the specification describes it: the
bracket-delimited quoted-array match, quote-normalized, parsed. -/
def bracketTier (text : String) : Option Json :=
  match arrayPatternFull text with
  | some m => jsonParse (normalizeQuotes m)
  | none => none

/-- The third extraction tier: the raw text parsed as JSON. -/
def rawTier (text : String) : Option Json := jsonParse text

/-- The first JavaScript-truthy value in a list of tier outcomes. -/
def firstTruthyJson : List (Option Json) → Option Json
  | [] => none
  | o :: rest => if jsTruthyOpt o then o else firstTruthyJson rest

/-- The three-tier extraction chain in specification form: the first
truthy tier outcome, returned only when it is an array.  Quote
normalization is applied at the first two tiers only. -/
def parseJsonArrayThreeTierSpec (text : String) : Option (List Json) :=
  keepIfArray (firstTruthyJson [fencedTier text, bracketTier text, rawTier text])

/-- The algorithm described by the claim under test, with the
single-quote normalization applied at all three tiers, including the
raw-text tier; written out for comparison with the source embedding,
which does not normalize the raw text. -/
def parseJsonArrayAllTiersNormalized (text : String) : Option (List Json) :=
  let j1 : Option Json :=
    match jsonBlockInner text with
    | some inner => jsonParse (normalizeQuotes inner)
    | none => none
  let j2 : Option Json :=
    if jsTruthyOpt j1 then j1
    else
      match arrayPatternFull text with
      | some m =>
        match jsonParse (normalizeQuotes m) with
        | some v => some v
        | none => j1
      | none => j1
  let j3 : Option Json :=
    if jsTruthyOpt j2 then j2
    else
      match jsonParse (normalizeQuotes text) with
      | some v => some v
      | none => j2
  keepIfArray j3

/-! ## Concrete inputs used by the witnesses -/

/-- A character-level tokenizer used to exercise the trimming pipeline
concretely. -/
def charTokenizer : Tokenizer :=
  { encode := fun s => .ok (s.data.map Char.toNat)
    decode := fun ts => .ok (String.mk (ts.map Char.ofNat)) }

/-- A trimming environment with no tokenizer settings, so the default
dispatch path is taken, backed by the character tokenizer. -/
def charTrimEnv : TrimEnv :=
  { tokenizerModel := none
    tokenizerType := none
    tokenizers := fun _ _ => charTokenizer }

/-- A non-shared knowledge item (no content metadata). -/
def knItem0 : KnowledgeItem :=
  { id := "doc-1"
    agentId := "agent-1"
    contentSerialized := "fact"
    metadata := none
    createdAt := some 0 }

/-- A daily-metric oracle in which only the TVL fetcher raises. -/
def dailyFetchTvlFails : MetricKey → Except String Int :=
  fun k => if k = .tvl then .error "boom" else .ok 7

/-! ## Theorems -/

/-- C6: if the underlying structured generation call of the
schema-based generateTweetActions fails, the returned ActionResponse is
the all-false record, and in particular no field of it is true, so a
failed call never produces an engagement. -/
theorem generateTweetActionsSchema_failure_all_false :
    ∀ e : String,
      generateTweetActionsSchema (.error e) =
        { like := false, retweet := false, quote := false, reply := false } ∧
      (generateTweetActionsSchema (.error e)).like = false ∧
      (generateTweetActionsSchema (.error e)).retweet = false ∧
      (generateTweetActionsSchema (.error e)).quote = false ∧
      (generateTweetActionsSchema (.error e)).reply = false := by
  intro e
  exact ⟨rfl, rfl, rfl, rfl, rfl⟩

/-- C9: the candidate preparation of the interaction loop sorts the
candidates by platform id ascending, but the chained filter dropping
posts authored by the agent discards its result, so a post authored by
the agent's own account is still in the candidate set the loop
iterates; the intended (specified) preparation would have dropped it. -/
theorem interactionLoop_own_tweet_not_dropped :
    candidatesBeforeLoop [⟨"200", "agentSelf"⟩, ⟨"100", "user1"⟩] "agentSelf" =
      [⟨"100", "user1"⟩, ⟨"200", "agentSelf"⟩] ∧
    (candidatesBeforeLoop [⟨"200", "agentSelf"⟩, ⟨"100", "user1"⟩] "agentSelf").any
        (fun t => t.userId = "agentSelf") = true ∧
    candidatesBeforeLoopSpec [⟨"200", "agentSelf"⟩, ⟨"100", "user1"⟩] "agentSelf" =
      [⟨"100", "user1"⟩] := by
  exact ⟨rfl, rfl, rfl⟩

/-- C8 counterexample: on the input below, which reaches the raw-text
tier, the source parseJsonArrayFromText returns no value because the
raw text is parsed without quote normalization, while the algorithm the
claim describes (normalization at each of the three tiers) would return
the array; the normalized text parses and the raw text does not. -/
theorem parseJsonArrayFromText_tier3_counterexample :
    parseJsonArrayFromText "['x', 1]" = none ∧
    parseJsonArrayAllTiersNormalized "['x', 1]" = some [Json.str "x", Json.num 1 0] ∧
    jsonParse (normalizeQuotes "['x', 1]") = some (Json.arr [Json.str "x", Json.num 1 0]) ∧
    jsonParse "['x', 1]" = none := by
  exact ⟨rfl, rfl, rfl, rfl⟩

/-- C5 counterexample: a second createKnowledge call for the same
non-shared item re-raises the primary-key error (whose SQLite message
does not contain the token the catch block looks for), rather than
returning normally as the claim states; the stored row is left
unchanged. -/
theorem createKnowledge_nonshared_duplicate_counterexample :
    (createKnowledge (createKnowledge [] knItem0 0 none).db knItem0 0 none).raised =
      some pkErrorKnowledge ∧
    (createKnowledge (createKnowledge [] knItem0 0 none).db knItem0 0 none).db =
      (createKnowledge [] knItem0 0 none).db ∧
    containsSub pkErrorKnowledge.message "SQLITE_CONSTRAINT_PRIMARYKEY" = false := by
  exact ⟨rfl, rfl, rfl⟩

/-- Inserting with INSERT OR REPLACE leaves exactly the new row among
the rows carrying its id. -/
theorem filter_insertOrReplace (db : List MemoryRow) (row : MemoryRow) :
    (insertOrReplaceMemories db row).filter (fun r => r.id = row.id) = [row] := by
  unfold insertOrReplaceMemories
  simp [List.filter_append, List.filter_filter]

/-- Rows surviving in the table after an INSERT OR REPLACE and carrying
the inserted id are the inserted row itself. -/
theorem mem_insertOrReplace_id (db : List MemoryRow) (row r : MemoryRow)
    (hr : r ∈ insertOrReplaceMemories db row) (hid : r.id = row.id) : r = row := by
  unfold insertOrReplaceMemories at hr
  rcases List.mem_append.mp hr with hl | hl
  · have := List.of_mem_filter hl
    simp [hid] at this
  · simpa using hl

/-- The row createMemory writes, spelled out: INSERT OR REPLACE of the
record with the unique column hard-coded to 1. -/
theorem createMemory_eq (db : List MemoryRow) (m : MemoryInput) (t f : String) (n : Int) :
    createMemory db m t f n =
      insertOrReplaceMemories db
        ⟨m.id.getD f, t, m.content, m.userId, m.roomId, m.agentId, 1, m.createdAt.getD n⟩ := rfl

/-- C1: createMemory always writes its row with the unique column set
to 1, whatever unique intent the caller carried, and a second call with
the same memory id replaces rather than duplicates: exactly one row
with that id remains, and every remaining row with that id is marked
unique. -/
theorem createMemory_upsert_always_unique :
    (∀ (db : List MemoryRow) (m : MemoryInput) (t freshId : String) (now : Int),
        ∃ row : MemoryRow,
          (createMemory db m t freshId now).getLast? = some row ∧
          row.uniq = 1 ∧ row.id = m.id.getD freshId) ∧
    (∀ (db : List MemoryRow) (m : MemoryInput) (t₁ t₂ f₁ f₂ : String) (n₁ n₂ : Int)
        (i : String), m.id = some i →
        ((createMemory (createMemory db m t₁ f₁ n₁) m t₂ f₂ n₂).filter
            (fun r => r.id = i)).length = 1 ∧
        (∀ r ∈ createMemory (createMemory db m t₁ f₁ n₁) m t₂ f₂ n₂,
            r.id = i → r.uniq = 1)) := by
  constructor
  · intro db m t freshId now
    refine ⟨⟨m.id.getD freshId, t, m.content, m.userId, m.roomId, m.agentId, 1,
      m.createdAt.getD now⟩, ?_, rfl, rfl⟩
    rw [createMemory_eq]
    unfold insertOrReplaceMemories
    simp
  · intro db m t₁ t₂ f₁ f₂ n₁ n₂ i hid
    constructor
    · rw [createMemory_eq (createMemory db m t₁ f₁ n₁) m t₂ f₂ n₂, hid]
      simp only [Option.getD_some]
      have h := filter_insertOrReplace (createMemory db m t₁ f₁ n₁)
        ⟨i, t₂, m.content, m.userId, m.roomId, m.agentId, 1, m.createdAt.getD n₂⟩
      rw [h]
      rfl
    · intro r hr hri
      rw [createMemory_eq (createMemory db m t₁ f₁ n₁) m t₂ f₂ n₂, hid] at hr
      simp only [Option.getD_some] at hr
      have heq := mem_insertOrReplace_id _ _ _ hr hri
      rw [heq]

/-- C1 witness: a concrete double insert with the same memory id leaves
one row with that id, and it is stored unique. -/
theorem createMemory_upsert_always_unique_witness :
    (((createMemory
        (createMemory [] ⟨some "m-1", "u", "r", "a", "hello", false, some 5⟩ "messages" "f1" 1)
        ⟨some "m-1", "u", "r", "a", "hello", false, some 5⟩ "messages" "f2" 2).filter
          (fun r => r.id = "m-1")).length = 1) := by
  exact (createMemory_upsert_always_unique.2 []
    ⟨some "m-1", "u", "r", "a", "hello", false, some 5⟩ "messages" "messages" "f1" "f2" 1 2
    "m-1" rfl).1

/-- C5 (amended): for a non-shared knowledge item, createKnowledge
propagates exactly the insert errors whose message does not contain the
token SQLITE_CONSTRAINT_PRIMARYKEY; since the primary-key duplicate
error's SQLite message lacks that token, an id collision on a
non-shared item raises (leaving the table unchanged) instead of being
treated as benign, and only errors whose message happens to contain the
token are swallowed. -/
theorem createKnowledge_nonshared_error_propagation :
    ∀ (db : List KnowledgeRow) (item : KnowledgeItem) (now : Int),
      (item.metadata.map (fun m => m.isShared)).getD false = false →
      ((∀ e : SqlError, db.any (fun r => r.id = item.id) = false →
          containsSub e.message "SQLITE_CONSTRAINT_PRIMARYKEY" = false →
          createKnowledge db item now (some e) = ⟨db, some e⟩) ∧
       (∀ e : SqlError, db.any (fun r => r.id = item.id) = false →
          containsSub e.message "SQLITE_CONSTRAINT_PRIMARYKEY" = true →
          createKnowledge db item now (some e) = ⟨db, none⟩) ∧
       (db.any (fun r => r.id = item.id) = true →
          createKnowledge db item now none = ⟨db, some pkErrorKnowledge⟩)) := by
  intro db item now hsh
  refine ⟨?_, ?_, ?_⟩
  · intro e hdup hmsg
    unfold createKnowledge insertKnowledgeRow
    simp [hsh, hdup, hmsg]
  · intro e hdup hmsg
    unfold createKnowledge insertKnowledgeRow
    simp [hsh, hdup, hmsg]
  · intro hdup
    have hct : containsSub pkErrorKnowledge.message "SQLITE_CONSTRAINT_PRIMARYKEY" = false := by
      decide
    unfold createKnowledge insertKnowledgeRow
    simp [hsh, hdup, hct]

/-- C5 witness: with a concrete non-shared item, an injected disk-style
error propagates, and a duplicate id raises the primary-key error. -/
theorem createKnowledge_nonshared_error_propagation_witness :
    createKnowledge [] knItem0 0 (some ⟨"SQLITE_IOERR", "disk I/O error"⟩) =
      ⟨[], some ⟨"SQLITE_IOERR", "disk I/O error"⟩⟩ ∧
    createKnowledge [⟨"doc-1", some "agent-1", "fact", 0, 0, none, none, 0⟩] knItem0 0 none =
      ⟨[⟨"doc-1", some "agent-1", "fact", 0, 0, none, none, 0⟩], some pkErrorKnowledge⟩ := by
  refine ⟨?_, ?_⟩
  · exact (createKnowledge_nonshared_error_propagation [] knItem0 0 rfl).1
      ⟨"SQLITE_IOERR", "disk I/O error"⟩ rfl rfl
  · exact (createKnowledge_nonshared_error_propagation
      [⟨"doc-1", some "agent-1", "fact", 0, 0, none, none, 0⟩] knItem0 0 rfl).2.2 rfl

/-- One failing iteration of the retry loop. -/
theorem retryGo_step_none {α} (step : Nat → Option α) (msg : String)
    (fuel count delay : Nat) (ds : List Nat) (h : step count = none) :
    retryGo step msg (fuel + 1) count delay ds =
      retryGo step msg fuel (count + 1) (delay * 2) (ds ++ [delay]) := by
  simp [retryGo, h]

/-- One succeeding iteration of the retry loop. -/
theorem retryGo_step_some {α} (step : Nat → Option α) (msg : String)
    (fuel count delay : Nat) (ds : List Nat) (v : α) (h : step count = some v) :
    retryGo step msg (fuel + 1) count delay ds = ⟨.ok v, count + 1, ds⟩ := by
  simp [retryGo, h]

/-- The exhausted retry loop raises its terminal message. -/
theorem retryGo_exhausted {α} (step : Nat → Option α) (msg : String)
    (count delay : Nat) (ds : List Nat) :
    retryGo step msg 0 count delay ds = ⟨.error msg, count, ds⟩ := rfl

/-- Shifting the delay list one failed iteration forward: the wait just
performed plus the doubled-start geometric tail equals the geometric
delay list of the longer run. -/
theorem delaysShift (delay : Nat) (n : Nat) (ds : List Nat) :
    (ds ++ [delay]) ++ (List.range n).map (fun j => delay * 2 * 2 ^ j) =
      ds ++ (List.range (n + 1)).map (fun j => delay * 2 ^ j) := by
  rw [List.append_assoc]
  congr 1
  rw [List.range_succ_eq_map]
  simp only [List.map_cons, List.map_map, pow_zero, mul_one, List.singleton_append]
  congr 1
  apply List.map_congr_left
  intro j _
  simp only [Function.comp]
  rw [pow_succ]
  ring

/-- The retry loop on an all-failing window of attempts: it uses up all
its fuel, waiting the doubling geometric delays, and raises. -/
theorem retryGo_all_none {α} (step : Nat → Option α) (msg : String) :
    ∀ (fuel count delay : Nat) (ds : List Nat),
      (∀ k, count ≤ k → k < count + fuel → step k = none) →
      retryGo step msg fuel count delay ds =
        ⟨.error msg, count + fuel, ds ++ (List.range fuel).map (fun j => delay * 2 ^ j)⟩ := by
  intro fuel
  induction fuel with
  | zero => intro count delay ds _; simp [retryGo_exhausted]
  | succ n ih =>
    intro count delay ds h
    rw [retryGo_step_none step msg n count delay ds (h count le_rfl (by omega))]
    rw [ih (count + 1) (delay * 2) (ds ++ [delay]) (fun k h1 h2 => h k (by omega) (by omega))]
    simp only [RetryTrace.mk.injEq]
    exact ⟨trivial, by omega, delaysShift delay n ds⟩

/-- The retry loop whose attempt count + k is the first to succeed:
the value is returned at once after k + 1 attempts of the window and
the k waits already performed. -/
theorem retryGo_succ_at {α} (step : Nat → Option α) (msg : String) :
    ∀ (fuel count delay : Nat) (ds : List Nat) (k : Nat) (v : α),
      k < fuel →
      (∀ j, count ≤ j → j < count + k → step j = none) →
      step (count + k) = some v →
      retryGo step msg fuel count delay ds =
        ⟨.ok v, count + k + 1, ds ++ (List.range k).map (fun j => delay * 2 ^ j)⟩ := by
  intro fuel
  induction fuel with
  | zero => intro count delay ds k v hk _ _; exact absurd hk (Nat.not_lt_zero k)
  | succ n ih =>
    intro count delay ds k v hk hfail hs
    cases k with
    | zero =>
      rw [retryGo_step_some step msg n count delay ds v (by simpa using hs)]
      simp
    | succ k2 =>
      rw [retryGo_step_none step msg n count delay ds (hfail count le_rfl (by omega))]
      rw [ih (count + 1) (delay * 2) (ds ++ [delay]) k2 v (by omega)
        (fun j h1 h2 => hfail j (by omega) (by omega))
        (by rw [show count + 1 + k2 = count + (k2 + 1) from by omega]; exact hs)]
      simp only [RetryTrace.mk.injEq]
      exact ⟨trivial, by omega, delaysShift delay k2 ds⟩

/-- A retrying helper whose five attempts all fail makes exactly five
attempts, waits 1 s, 2 s, 4 s, 8 s, 16 s, and raises its terminal
message. -/
theorem runWithRetries_exhausted {α} (step : Nat → Option α) (msg : String)
    (h : ∀ k, k < 5 → step k = none) :
    runWithRetries step msg = ⟨.error msg, 5, allRetryDelays⟩ := by
  unfold runWithRetries
  rw [retryGo_all_none step msg 5 0 1000 [] (fun k _ hk2 => h k (by omega))]
  rfl

/-- A retrying helper whose attempt k is the first to succeed returns
that value at once, with k + 1 attempts made and only the first k waits
performed. -/
theorem runWithRetries_first_success {α} (step : Nat → Option α) (msg : String)
    (v : α) (k : Nat) (hk : k < 5)
    (hfail : ∀ j, j < k → step j = none) (hs : step k = some v) :
    runWithRetries step msg = ⟨.ok v, k + 1, allRetryDelays.take k⟩ := by
  unfold runWithRetries
  rw [retryGo_succ_at step msg 5 0 1000 [] k v hk (fun j _ h2 => hfail j (by omega))
    (by simpa using hs)]
  interval_cases k <;> rfl

/-- C2: each of the five retrying generation helpers makes exactly 5
attempts when every attempt fails to yield a parseable result, waiting
1 s after the first failure and doubling each time (1 s, 2 s, 4 s, 8 s,
16 s) before raising its terminal retry-exhausted error; and an attempt
that yields a parseable result is returned immediately, with no further
retries and only the waits already performed. -/
theorem generation_retry_policy :
    (∀ gen, (∀ k, k < 5 → shouldRespondStep gen k = none) →
        generateShouldRespond gen =
          ⟨.error "generateShouldRespond failed after 5 retries", 5, allRetryDelays⟩) ∧
    (∀ gen v k, k < 5 → (∀ j, j < k → shouldRespondStep gen j = none) →
        shouldRespondStep gen k = some v →
        generateShouldRespond gen = ⟨.ok v, k + 1, allRetryDelays.take k⟩) ∧
    (∀ gen, (∀ k, k < 5 → trueOrFalseStep gen k = none) →
        generateTrueOrFalse gen =
          ⟨.error "Failed to generate boolean response after maximum retries", 5, allRetryDelays⟩) ∧
    (∀ gen v k, k < 5 → (∀ j, j < k → trueOrFalseStep gen j = none) →
        trueOrFalseStep gen k = some v →
        generateTrueOrFalse gen = ⟨.ok v, k + 1, allRetryDelays.take k⟩) ∧
    (∀ (context : String) gen, context ≠ "" →
        (∀ k, k < 5 → objectDeprecatedStep gen k = none) →
        generateObjectDeprecated context gen =
          ⟨.error "Failed to generate object after maximum retries", 5, allRetryDelays⟩) ∧
    (∀ (context : String) gen v k, context ≠ "" → k < 5 →
        (∀ j, j < k → objectDeprecatedStep gen j = none) →
        objectDeprecatedStep gen k = some v →
        generateObjectDeprecated context gen = ⟨.ok v, k + 1, allRetryDelays.take k⟩) ∧
    (∀ (context : String) gen, context ≠ "" →
        (∀ k, k < 5 → objectArrayStep gen k = none) →
        generateObjectArray context gen =
          ⟨.error "Failed to generate object array after maximum retries", 5, allRetryDelays⟩) ∧
    (∀ (context : String) gen v k, context ≠ "" → k < 5 →
        (∀ j, j < k → objectArrayStep gen j = none) →
        objectArrayStep gen k = some v →
        generateObjectArray context gen = ⟨.ok v, k + 1, allRetryDelays.take k⟩) ∧
    (∀ gen, (∀ k, k < 5 → tweetActionsStep gen k = none) →
        generateTweetActionsRetry gen =
          ⟨.error "Failed to generate tweet actions after maximum retries", 5, allRetryDelays⟩) ∧
    (∀ gen v k, k < 5 → (∀ j, j < k → tweetActionsStep gen j = none) →
        tweetActionsStep gen k = some v →
        generateTweetActionsRetry gen = ⟨.ok v, k + 1, allRetryDelays.take k⟩) := by
  refine ⟨?_, ?_, ?_, ?_, ?_, ?_, ?_, ?_, ?_, ?_⟩
  · intro gen h
    exact runWithRetries_exhausted _ _ h
  · intro gen v k hk hfail hs
    exact runWithRetries_first_success _ _ v k hk hfail hs
  · intro gen h
    exact runWithRetries_exhausted _ _ h
  · intro gen v k hk hfail hs
    exact runWithRetries_first_success _ _ v k hk hfail hs
  · intro context gen hc h
    unfold generateObjectDeprecated
    rw [if_neg hc]
    exact runWithRetries_exhausted _ _ h
  · intro context gen v k hc hk hfail hs
    unfold generateObjectDeprecated
    rw [if_neg hc]
    exact runWithRetries_first_success _ _ v k hk hfail hs
  · intro context gen hc h
    unfold generateObjectArray
    rw [if_neg hc]
    exact runWithRetries_exhausted _ _ h
  · intro context gen v k hc hk hfail hs
    unfold generateObjectArray
    rw [if_neg hc]
    exact runWithRetries_first_success _ _ v k hk hfail hs
  · intro gen h
    exact runWithRetries_exhausted _ _ h
  · intro gen v k hk hfail hs
    exact runWithRetries_first_success _ _ v k hk hfail hs

/-- C2 witness: with an always-throwing generation oracle each helper
raises its terminal error after exactly 5 attempts and the waits
1 s, 2 s, 4 s, 8 s, 16 s; with an oracle whose third attempt returns a
parseable response, the parsed value is returned after 3 attempts with
only the first two waits. -/
theorem generation_retry_policy_witness :
    generateShouldRespond (fun _ => .threw) =
      ⟨.error "generateShouldRespond failed after 5 retries", 5, [1000, 2000, 4000, 8000, 16000]⟩ ∧
    generateTrueOrFalse (fun _ => .threw) =
      ⟨.error "Failed to generate boolean response after maximum retries", 5,
        [1000, 2000, 4000, 8000, 16000]⟩ ∧
    generateObjectDeprecated "ctx" (fun _ => .threw) =
      ⟨.error "Failed to generate object after maximum retries", 5,
        [1000, 2000, 4000, 8000, 16000]⟩ ∧
    generateObjectArray "ctx" (fun _ => .threw) =
      ⟨.error "Failed to generate object array after maximum retries", 5,
        [1000, 2000, 4000, 8000, 16000]⟩ ∧
    generateTweetActionsRetry (fun _ => .threw) =
      ⟨.error "Failed to generate tweet actions after maximum retries", 5,
        [1000, 2000, 4000, 8000, 16000]⟩ ∧
    generateShouldRespond
        (fun k => if k < 2 then .threw else .ok "<response>[RESPOND]</response>") =
      ⟨.ok .respond, 3, [1000, 2000]⟩ := by
  refine ⟨?_, ?_, ?_, ?_, ?_, ?_⟩
  · exact generation_retry_policy.1 _ (fun k _ => rfl)
  · exact generation_retry_policy.2.2.1 _ (fun k _ => rfl)
  · exact generation_retry_policy.2.2.2.2.1 "ctx" _ (by decide) (fun k _ => rfl)
  · exact generation_retry_policy.2.2.2.2.2.2.1 "ctx" _ (by decide) (fun k _ => rfl)
  · exact generation_retry_policy.2.2.2.2.2.2.2.2.1 _ (fun k _ => rfl)
  · exact generation_retry_policy.2.1 _ .respond 2 (by norm_num)
      (fun j hj => by interval_cases j <;> rfl) rfl

/-- With a positive budget and a non-empty context, trimTokens hands the
context to the truncation routine of its selected tokenizer (the auto
and tiktoken routines have the same truncation body). -/
theorem trimTokens_dispatch (env : TrimEnv) (context : String) (b : Int)
    (hc : context ≠ "") (hb : ¬ b ≤ 0) :
    trimTokens env context b =
      .ok (truncateTiktokenM (selectedTokenizer env) context b.toNat) := by
  unfold trimTokens selectedTokenizer
  rw [if_neg hc, if_neg hb]
  split_ifs <;> rfl

/-- The truncation routine returns the context unchanged when the
encoding is within budget, and the decoding of the most recent budget
tokens when it is over budget. -/
theorem truncateTiktokenM_spec (tok : Tokenizer) (context : String) (budget : Nat)
    (tokens : List Nat) (henc : tok.encode context = .ok tokens) :
    (tokens.length ≤ budget → truncateTiktokenM tok context budget = context) ∧
    (budget < tokens.length →
      ∀ s, tok.decode (tokens.drop (tokens.length - budget)) = .ok s →
        truncateTiktokenM tok context budget = s) := by
  unfold truncateTiktokenM
  constructor
  · intro hle
    simp only [henc]
    rw [if_pos hle]
  · intro hgt s hdec
    simp only [henc]
    rw [if_neg (by omega)]
    simp only [hdec]

/-- C3: for every non-empty context and positive budget, when the
context's token count under the selected tokenizer is within the
budget, trimTokens returns the context itself, byte for byte; when it
exceeds the budget, trimTokens returns the decoding of only the most
recent budget tokens, the older tokens being dropped. -/
theorem trimTokens_budget_behavior :
    ∀ (env : TrimEnv) (context : String) (budget : Nat) (tokens : List Nat),
      context ≠ "" → 0 < budget →
      (selectedTokenizer env).encode context = .ok tokens →
      (tokens.length ≤ budget → trimTokens env context (budget : Int) = .ok context) ∧
      (budget < tokens.length →
        ∀ s, (selectedTokenizer env).decode (tokens.drop (tokens.length - budget)) = .ok s →
          trimTokens env context (budget : Int) = .ok s) := by
  intro env context budget tokens hc hb henc
  have hbi : ¬ ((budget : Int) ≤ 0) := by omega
  have hdisp := trimTokens_dispatch env context (budget : Int) hc hbi
  have htn : ((budget : Int)).toNat = budget := by omega
  rw [htn] at hdisp
  have hspec := truncateTiktokenM_spec (selectedTokenizer env) context budget tokens henc
  constructor
  · intro hle
    rw [hdisp, hspec.1 hle]
  · intro hgt s hdec
    rw [hdisp, hspec.2 hgt s hdec]

/-- C3 witness: with a character tokenizer on the default dispatch
path, an over-budget context keeps only its last budget characters and
an in-budget context is returned unchanged. -/
theorem trimTokens_budget_behavior_witness :
    trimTokens charTrimEnv "abcde" 3 = .ok "cde" ∧
    trimTokens charTrimEnv "ab" 5 = .ok "ab" := by
  constructor
  · exact (trimTokens_budget_behavior charTrimEnv "abcde" 3 [97, 98, 99, 100, 101]
      (by decide) (by norm_num) rfl).2 (by norm_num) "cde" rfl
  · exact (trimTokens_budget_behavior charTrimEnv "ab" 5 [97, 98]
      (by decide) (by norm_num) rfl).1 (by norm_num)

/-- C10: trimTokens on an empty context returns the empty string
without raising, whatever the budget (even zero or negative); on a
non-empty context it raises the maxTokens-must-be-positive error
exactly when the budget is non-positive. -/
theorem trimTokens_empty_and_guard :
    (∀ (env : TrimEnv) (b : Int), trimTokens env "" b = .ok "") ∧
    (∀ (env : TrimEnv) (context : String) (b : Int), context ≠ "" →
      ((trimTokens env context b = .error "maxTokens must be positive") ↔ b ≤ 0)) := by
  constructor
  · intro env b
    rfl
  · intro env context b hc
    unfold trimTokens
    rw [if_neg hc]
    by_cases hb : b ≤ 0
    · simp [hb]
    · rw [if_neg hb]
      constructor
      · intro h
        exfalso
        revert h
        split_ifs <;> simp
      · intro h
        exact absurd h hb

/-- C10 witness: the empty context passes through even with a negative
budget, and a one-character context with budget zero raises. -/
theorem trimTokens_empty_and_guard_witness :
    trimTokens charTrimEnv "" (-2) = .ok "" ∧
    trimTokens charTrimEnv "a" 0 = .error "maxTokens must be positive" := by
  constructor
  · exact trimTokens_empty_and_guard.1 charTrimEnv (-2)
  · exact (trimTokens_empty_and_guard.2 charTrimEnv "a" 0 (by decide)).mpr (by norm_num)

/-- C4: placeBet raises (before any contract call is simulated) when
the bettor's allowance is zero, or when the converted amount is at
least the minimum but the allowance is below the final clamped bet
amount; it raises before any simulation when the converted amount is
below the contract minimum; and when the requested amount exceeds the
contract maximum, every bet amount used for the transaction — both the
simulated one and the one in a successful result — equals the maximum,
not the requested amount. -/
theorem placeBet_allowance_min_max :
    ∀ (env : ChainEnv) (pid : Int) (oc : Bool) (amount : String) (w : Int),
      parseEtherM amount = .ok w →
      ((env.allowance = 0 →
          (placeBet env pid oc amount).result = .error "Insufficient allowance" ∧
          (placeBet env pid oc amount).simulatedAmounts = []) ∧
       (env.minBet ≤ w → 0 < env.allowance → env.allowance < min w env.maxBet →
          (placeBet env pid oc amount).result = .error "Insufficient allowance" ∧
          (placeBet env pid oc amount).simulatedAmounts = []) ∧
       (w < env.minBet →
          (∃ e, (placeBet env pid oc amount).result = .error e) ∧
          (placeBet env pid oc amount).simulatedAmounts = []) ∧
       (env.maxBet < w →
          (∀ a ∈ (placeBet env pid oc amount).simulatedAmounts, a = env.maxBet) ∧
          (∀ r, (placeBet env pid oc amount).result = .ok r →
            r.betAmountWei = env.maxBet))) := by
  intro env pid oc amount w hw
  refine ⟨?_, ?_, ?_, ?_⟩
  · intro hz
    have h1 : env.allowance ≤ 0 := by omega
    simp [placeBet, getBetAmount, hw, h1]
  · intro hmin hpos hlt
    have h1 : ¬ (env.allowance ≤ 0) := by omega
    have h2 : ¬ (w < env.minBet) := by omega
    have h3 : env.allowance < (if w > env.maxBet then env.maxBet else w) := by
      by_cases h : w > env.maxBet
      · rw [if_pos h]
        have := min_le_right w env.maxBet
        omega
      · rw [if_neg h]
        have := min_le_left w env.maxBet
        omega
    simp [placeBet, getBetAmount, hw, h1, h2, h3]
  · intro hlt
    by_cases hz : env.allowance ≤ 0
    · refine ⟨⟨"Insufficient allowance", ?_⟩, ?_⟩ <;>
        simp [placeBet, getBetAmount, hw, hz]
    · refine ⟨⟨"Bet amount is less than the minimum bet", ?_⟩, ?_⟩ <;>
        simp [placeBet, getBetAmount, hw, hz, hlt]
  · intro hgt
    by_cases hz : env.allowance ≤ 0
    · simp [placeBet, getBetAmount, hw, hz]
    · by_cases hm : w < env.minBet
      · simp [placeBet, getBetAmount, hw, hz, hm]
      · by_cases hal : env.allowance < env.maxBet
        · simp [placeBet, getBetAmount, hw, hz, hm, hgt, hal]
        · cases hsim : env.simSucceeds <;> cases hrec : env.receiptSuccess <;>
            simp [placeBet, getBetAmount, hw, hz, hm, hgt, hal, hsim, hrec]

/-- C4 witness: a zero allowance raises with no simulation; a request
above the contract maximum is clamped to the maximum in the successful
result. -/
theorem placeBet_allowance_min_max_witness :
    parseEtherM "0.5" = .ok 500000000000000000 ∧
    (placeBet ⟨0, 1000000000000000000, 100000000000000000, true, true⟩ 7 true "0.5").result =
      .error "Insufficient allowance" ∧
    (placeBet ⟨0, 1000000000000000000, 100000000000000000, true, true⟩ 7 true "0.5").simulatedAmounts = [] ∧
    (∀ r, (placeBet ⟨5000000000000000000, 2000000000000000000, 100000000000000000, true, true⟩
        7 true "3").result = .ok r → r.betAmountWei = 2000000000000000000) := by
  refine ⟨rfl, ?_, ?_, ?_⟩
  · exact ((placeBet_allowance_min_max
      ⟨0, 1000000000000000000, 100000000000000000, true, true⟩ 7 true "0.5"
      500000000000000000 rfl).1 rfl).1
  · exact ((placeBet_allowance_min_max
      ⟨0, 1000000000000000000, 100000000000000000, true, true⟩ 7 true "0.5"
      500000000000000000 rfl).1 rfl).2
  · exact ((placeBet_allowance_min_max
      ⟨5000000000000000000, 2000000000000000000, 100000000000000000, true, true⟩ 7 true "3"
      3000000000000000000 rfl).2.2.2 (by norm_num)).2

/-- C7: for a valid historical date, when exactly one of the nine
daily-metric fetchers raises, getDailyData still returns: the failed
metric's field is zero, every other field carries its fetched value,
and exactly one error line is logged, for the failed metric. -/
theorem getDailyData_single_failure :
    ∀ (fetch : MetricKey → Except String Int) (vals : MetricKey → Int) (date : String)
      (k0 : MetricKey) (e : String),
      fetch k0 = .error e →
      (∀ k, k ≠ k0 → fetch k = .ok (vals k)) →
      getDailyData true fetch date =
        .ok (mkStats date (fun k => if k = k0 then 0 else vals k),
          ["Error fetching " ++ metricName k0 ++ ": " ++ e]) := by
  intro fetch vals date k0 e h0 hok
  cases k0 <;>
    simp [getDailyData, mkStats, fetcherOrder, metricName, h0, hok, List.filterMap]

/-- C7 witness: with an oracle in which only the TVL fetcher raises,
the snapshot has a zero TVL, sevens elsewhere, and one log line. -/
theorem getDailyData_single_failure_witness :
    getDailyData true dailyFetchTvlFails "2024-01-01" =
      .ok (mkStats "2024-01-01" (fun k => if k = .tvl then 0 else 7),
        ["Error fetching tvl: boom"]) := by
  exact getDailyData_single_failure dailyFetchTvlFails (fun _ => 7) "2024-01-01" .tvl "boom"
    rfl (by intro k hk; simp [dailyFetchTvlFails, hk])

/-- A JavaScript-falsy JSON value is never an array, so the final
array filter of parseJsonArrayFromText rejects it. -/
theorem keepIfArray_falsy {o : Option Json} (h : jsTruthyOpt o = false) :
    keepIfArray o = none := by
  match o with
  | none => rfl
  | some j => cases j <;> simp_all [keepIfArray, jsTruthyOpt, jsTruthy]

/-- The first extraction tier of the source, as written inline, is the
fenced tier. -/
theorem tier1_eq (text : String) :
    (match jsonBlockInner text with
     | some inner => jsonParse (normalizeQuotes inner)
     | none => none) = fencedTier text := by
  unfold fencedTier
  rfl

/-- The second-tier fallback of the source keeps the current value when
either the pattern does not match or its parse fails; this is the
bracket tier with the current value as fallback. -/
theorem tier2_elim (text : String) (a : Option Json) :
    (match arrayPatternFull text with
     | some m =>
       match jsonParse (normalizeQuotes m) with
       | some v => some v
       | none => a
     | none => a) = (bracketTier text).elim a some := by
  unfold bracketTier
  cases arrayPatternFull text with
  | none => rfl
  | some m => cases hp : jsonParse (normalizeQuotes m) <;> simp [hp]

/-- The third-tier fallback of the source is the raw tier with the
current value as fallback. -/
theorem tier3_elim (text : String) (a : Option Json) :
    (match jsonParse text with
     | some v => some v
     | none => a) = (rawTier text).elim a some := by
  unfold rawTier
  cases jsonParse text <;> rfl

/-- The tiered overwrite-if-falsy chain of the source computes the
first truthy value of the three tiers, up to the final array filter. -/
theorem chain_cases (a b c : Option Json) :
    keepIfArray
      (if jsTruthyOpt (if jsTruthyOpt a then a else b.elim a some)
        then (if jsTruthyOpt a then a else b.elim a some)
        else c.elim (if jsTruthyOpt a then a else b.elim a some) some) =
    keepIfArray (if jsTruthyOpt a then a
      else if jsTruthyOpt b then b else if jsTruthyOpt c then c else none) := by
  by_cases ha : jsTruthyOpt a = true
  · simp [ha]
  · rw [Bool.not_eq_true] at ha
    simp only [ha, Bool.false_eq_true, if_false]
    cases b with
    | some vb =>
      simp only [Option.elim]
      by_cases hb : jsTruthy vb = true
      · simp [jsTruthyOpt, hb]
      · rw [Bool.not_eq_true] at hb
        simp only [jsTruthyOpt, hb, Bool.false_eq_true, if_false]
        cases c with
        | none =>
          simp only [Option.elim]
          rw [keepIfArray_falsy (by simp [jsTruthyOpt, hb]),
            keepIfArray_falsy (by simp [jsTruthyOpt])]
        | some vc =>
          simp only [Option.elim]
          by_cases hc : jsTruthy vc = true
          · simp [jsTruthyOpt, hc]
          · rw [Bool.not_eq_true] at hc
            simp only [jsTruthyOpt, hc, Bool.false_eq_true, if_false]
            rw [keepIfArray_falsy (by simp [jsTruthyOpt, hc]),
              keepIfArray_falsy (by simp [jsTruthyOpt])]
    | none =>
      have hnone : jsTruthyOpt none = false := rfl
      simp only [Option.elim, ha, hnone, Bool.false_eq_true, if_false]
      cases c with
      | none =>
        simp only [Option.elim]
        rw [keepIfArray_falsy ha]
        rfl
      | some vc =>
        simp only [Option.elim]
        by_cases hc : jsTruthy vc = true
        · simp only [jsTruthyOpt, hc, if_true]
        · rw [Bool.not_eq_true] at hc
          simp only [jsTruthyOpt, hc, Bool.false_eq_true, if_false]
          rw [keepIfArray_falsy (show jsTruthyOpt (some vc) = false from by
            simp [jsTruthyOpt, hc])]
          rfl

/-- C8 (amended): parseJsonArrayFromText is the three-tier extraction
in the stated order — fenced json block, bracket-delimited quoted-array
pattern, raw text — with the single-quote normalization applied before
parsing at the first two tiers only (the raw text is parsed as is),
returning the first truthy parse only when it is an array; and on the
spec's fence-free example it returns the two-element array via the
bracket-pattern fallback with quote normalization. -/
theorem parseJsonArrayFromText_three_tier :
    (∀ text, parseJsonArrayFromText text = parseJsonArrayThreeTierSpec text) ∧
    parseJsonArrayFromText "values: ['x','y']" = some [Json.str "x", Json.str "y"] := by
  constructor
  · intro text
    simp only [parseJsonArrayFromText, parseJsonArrayThreeTierSpec, firstTruthyJson]
    rw [tier1_eq, tier2_elim, tier3_elim]
    exact chain_cases (fencedTier text) (bracketTier text) (rawTier text)
  · rfl

end ElizaIoTeX
